import Mathlib

/-!
Verification of the data-normalization / aggregation pipeline and the
resilient data-source facade of the ayna-analytics-ui repository.

The TypeScript sources are shallowly embedded: JavaScript runtime values
are modelled by `JsVal` (numbers are exact rationals plus NaN and the two
infinities), environment builtins that the code calls but does not define
(`Number(string)`, `String(value)`, `formatDateTime`'s date machinery) are
passed as explicit function parameters, network and snapshot fetches are
modelled as oracles `String → Except Unit JsVal`, and the module-level
caches become explicit state threaded through the functions.
-/

namespace Ayna

/-- Model of a JavaScript number: a finite value (an exact rational), NaN,
or one of the two infinities. -/
inductive JsNum where
  | fin (q : ℚ)
  | nan
  | posInf
  | negInf
deriving DecidableEq, Repr

/-- `Number.isFinite`. -/
def JsNum.isFinite : JsNum → Bool
  | .fin _ => true
  | _ => false

/-- The rational payload of a finite JS number, `0` otherwise. -/
def JsNum.toQ : JsNum → ℚ
  | .fin q => q
  | _ => 0

/-- Model of a JavaScript value as it occurs in JSON payloads and CSV
cells: numbers, strings, booleans, `null`, `undefined`, `Date` objects
(carrying their `getTime()` result), arrays and plain objects. -/
inductive JsVal where
  | num (n : JsNum)
  | str (s : String)
  | bool (b : Bool)
  | null
  | undefined
  | date (t : JsNum)
  | arr (elems : List JsVal)
  | obj (props : List (String × JsVal))

/-- Association-list read, modelling both JS property lookup on the
object literals we build and `Map.get` (keyed with SameValueZero). -/
def assocGet {κ α : Type} [DecidableEq κ] : List (κ × α) → κ → Option α
  | [], _ => none
  | (k, v) :: rest, key => if k = key then some v else assocGet rest key

/-- Association-list write, modelling JS `Map.set` and property
assignment: an existing key keeps its position, a new key is appended. -/
def assocSet {κ α : Type} [DecidableEq κ] : List (κ × α) → κ → α → List (κ × α)
  | [], key, v => [(key, v)]
  | (k0, v0) :: rest, key, v =>
    if k0 = key then (key, v) :: rest else (k0, v0) :: assocSet rest key v

/-- JS property access `value[key]`: `undefined` on missing keys and on
values that carry no modelled properties. -/
def getField (v : JsVal) (key : String) : JsVal :=
  match v with
  | .obj props =>
    match assocGet props key with
    | some w => w
    | none => .undefined
  | _ => .undefined

/-- JS nullish coalescing `a ?? b`. -/
def nullishOr (a b : JsVal) : JsVal :=
  match a with
  | .null => b
  | .undefined => b
  | _ => a

/-- `typeof v === 'object' && v !== null` (arrays and dates are objects
in JS), i.e. the repository's `isRecord` predicate. -/
def isRecord (v : JsVal) : Bool :=
  match v with
  | .obj _ => true
  | .arr _ => true
  | .date _ => true
  | _ => false

/-- `Array.isArray`. -/
def isArr : JsVal → Bool
  | .arr _ => true
  | _ => false

/-- `typeof v === 'number'` (NaN and the infinities are numbers). -/
def isNumberVal : JsVal → Bool
  | .num _ => true
  | _ => false

/-- `typeof v === 'number' && Number.isFinite(v)`. -/
def isFiniteNumVal : JsVal → Bool
  | .num n => n.isFinite
  | _ => false

/-- Strict equality of a JS value against a string literal. -/
def strictEqStr (v : JsVal) (s : String) : Bool :=
  match v with
  | .str t => t == s
  | _ => false

/-- `asNumber` from `busAnalyticsWorker.ts` (identical copy in the
BusAnalytics page): `parse` models the `Number(string)` builtin. -/
def asNumber (parse : String → JsNum) (value : JsVal) : JsNum :=
  match value with
  | .num n => if n.isFinite then n else .fin 0
  | .str s =>
    let parsed := parse s
    if parsed.isFinite then parsed else .fin 0
  | _ => .fin 0

/-- C6: `asNumber` is total and never yields NaN, an infinity or
`undefined`: every input maps to a finite number; `null`, `undefined`,
NaN, the infinities, and strings parsing to a non-finite number map to
`0`; finite numbers and cleanly-parseable numeric strings map to their
exact numeric value. -/
theorem asNumber_total_spec (parse : String → JsNum) (v : JsVal) (s : String) (q : ℚ) :
    (∃ r : ℚ, asNumber parse v = .fin r)
    ∧ asNumber parse .null = .fin 0
    ∧ asNumber parse .undefined = .fin 0
    ∧ asNumber parse (.num .nan) = .fin 0
    ∧ asNumber parse (.num .posInf) = .fin 0
    ∧ asNumber parse (.num .negInf) = .fin 0
    ∧ asNumber parse (.num (.fin q)) = .fin q
    ∧ ((parse s).isFinite = false → asNumber parse (.str s) = .fin 0)
    ∧ (parse s = .fin q → asNumber parse (.str s) = .fin q) := by
  refine ⟨?_, rfl, rfl, rfl, rfl, rfl, rfl, ?_, ?_⟩
  · cases v with
    | num n => cases n <;> exact ⟨_, rfl⟩
    | str t =>
      simp only [asNumber]
      cases h : parse t with
      | fin r => exact ⟨r, by simp [JsNum.isFinite]⟩
      | nan => exact ⟨0, by simp [JsNum.isFinite]⟩
      | posInf => exact ⟨0, by simp [JsNum.isFinite]⟩
      | negInf => exact ⟨0, by simp [JsNum.isFinite]⟩
    | _ => exact ⟨0, rfl⟩
  · intro h
    simp [asNumber, h]
  · intro h
    simp [asNumber, h, JsNum.isFinite]

/-- Witness for `asNumber_total_spec` at concrete inputs. -/
theorem asNumber_total_spec_witness :
    asNumber (fun _ => JsNum.nan) (.str "abc") = .fin 0 :=
  (asNumber_total_spec (fun _ => JsNum.nan) (.str "abc") "abc" 0).2.2.2.2.2.2.2.1 rfl

/-! ## Aggregation engine (`buildChartData` in `busAnalyticsWorker.ts`) -/

/-- A normalized analytics row: JS object from column name to cell. -/
abbrev Row := List (String × JsVal)

/-- `row[field]` (`undefined` when the column is missing). -/
def rowGet (row : Row) (field : String) : JsVal :=
  (assocGet row field).getD .undefined

/-- `findFieldName`: the first field whose name the regex accepts; the
regex test is modelled by a boolean matcher on the name. -/
def findFieldName (fields : List String) (matcher : String → Bool) : Option String :=
  fields.find? matcher

/-- The six fuzzily-resolved column names `buildChartData` starts from. -/
structure AggConfig where
  hourField : Option String
  routeField : Option String
  totalCountField : Option String
  operatorField : Option String
  smartCardField : Option String
  qrField : Option String
deriving DecidableEq, Repr

/-- The mutable accumulation state of `buildChartData`'s row loop: three
insertion-ordered `Map`s and the two payment totals. -/
structure AggState where
  hourlyTotals : List (String × ℚ)
  routeTotals : List (String × ℚ)
  operatorTotals : List (String × ℚ)
  smartCardTotal : ℚ
  qrTotal : ℚ
deriving DecidableEq, Repr

/-- The state before the loop. -/
def AggState.init : AggState := ⟨[], [], [], 0, 0⟩

/-- `map.get(k) ?? 0`. -/
def totalsGet (m : List (String × ℚ)) (k : String) : ℚ :=
  (assocGet m k).getD 0

/-- `value.padStart(2, '0')`. -/
def padStart2 (s : String) : String :=
  if s.length < 2 then String.mk (List.replicate (2 - s.length) '0') ++ s else s

/-- `totalCountField ? asNumber(row[totalCountField]) : 0`. -/
def countOf (parse : String → JsNum) (cfg : AggConfig) (row : Row) : ℚ :=
  match cfg.totalCountField with
  | some f => (asNumber parse (rowGet row f)).toQ
  | none => 0

/-- `smartCardField` contribution of one (non-skipped) row. -/
def smartValOf (parse : String → JsNum) (cfg : AggConfig) (row : Row) : ℚ :=
  match cfg.smartCardField with
  | some f => (asNumber parse (rowGet row f)).toQ
  | none => 0

/-- `qrField` contribution of one (non-skipped) row. -/
def qrValOf (parse : String → JsNum) (cfg : AggConfig) (row : Row) : ℚ :=
  match cfg.qrField with
  | some f => (asNumber parse (rowGet row f)).toQ
  | none => 0

/-- One iteration of the `for (const row of rows)` loop of
`buildChartData`; `jstr` models the `String(...)` builtin. -/
def aggStep (jstr : JsVal → String) (parse : String → JsNum) (cfg : AggConfig)
    (st : AggState) (row : Row) : AggState :=
  let countValue := countOf parse cfg row
  if countValue ≤ 0 then st
  else
    let st1 := match cfg.hourField with
      | some f =>
        let hourValue := jstr (nullishOr (rowGet row f) (.str ""))
        let hourLabel := if 0 < hourValue.length then padStart2 hourValue ++ ":00" else "Unknown"
        { st with hourlyTotals := assocSet st.hourlyTotals hourLabel (totalsGet st.hourlyTotals hourLabel + countValue) }
      | none => st
    let st2 := match cfg.routeField with
      | some f =>
        let route := jstr (nullishOr (rowGet row f) (.str "Unknown"))
        { st1 with routeTotals := assocSet st1.routeTotals route (totalsGet st1.routeTotals route + countValue) }
      | none => st1
    let st3 := match cfg.operatorField with
      | some f =>
        let op := jstr (nullishOr (rowGet row f) (.str "Unknown"))
        { st2 with operatorTotals := assocSet st2.operatorTotals op (totalsGet st2.operatorTotals op + countValue) }
      | none => st2
    let st4 := match cfg.smartCardField with
      | some f => { st3 with smartCardTotal := st3.smartCardTotal + (asNumber parse (rowGet row f)).toQ }
      | none => st3
    match cfg.qrField with
    | some f => { st4 with qrTotal := st4.qrTotal + (asNumber parse (rowGet row f)).toQ }
    | none => st4

/-- The whole row loop of `buildChartData`. -/
def aggregate (jstr : JsVal → String) (parse : String → JsNum) (cfg : AggConfig)
    (rows : List Row) : AggState :=
  rows.foldl (aggStep jstr parse cfg) AggState.init

/-- `{label, value}`. -/
structure ChartItem where
  label : String
  value : ℚ
deriving DecidableEq, Repr

/-- Comparator of the `hourly` sort, `a[0].localeCompare(b[0])`,
modelled as code-unit string order. -/
def labelAsc (a b : String × ℚ) : Bool := a.1 ≤ b.1

/-- Comparator of the `topRoutes`/`operatorSplit` sorts,
`(a, b) => b[1] - a[1]` (descending by value, stable). -/
def valueDesc (a b : String × ℚ) : Bool := b.2 ≤ a.2

/-- `routeTotals` after the loop. -/
def routeTotalsOf (jstr : JsVal → String) (parse : String → JsNum) (cfg : AggConfig)
    (rows : List Row) : List (String × ℚ) :=
  (aggregate jstr parse cfg rows).routeTotals

/-- The `topRoutes` series: route totals sorted descending by value,
truncated to 12. -/
def topRoutesOf (jstr : JsVal → String) (parse : String → JsNum) (cfg : AggConfig)
    (rows : List Row) : List ChartItem :=
  (((routeTotalsOf jstr parse cfg rows).mergeSort valueDesc).take 12).map
    (fun p => ChartItem.mk p.1 p.2)

/-- The `hourly` series. -/
def hourlyOf (jstr : JsVal → String) (parse : String → JsNum) (cfg : AggConfig)
    (rows : List Row) : List ChartItem :=
  (((aggregate jstr parse cfg rows).hourlyTotals.mergeSort labelAsc)).map
    (fun p => ChartItem.mk p.1 p.2)

/-- The `operatorSplit` series: operator totals sorted descending,
truncated to 6. -/
def operatorSplitOf (jstr : JsVal → String) (parse : String → JsNum) (cfg : AggConfig)
    (rows : List Row) : List ChartItem :=
  (((aggregate jstr parse cfg rows).operatorTotals.mergeSort valueDesc).take 6).map
    (fun p => ChartItem.mk p.1 p.2)

/-- The `paymentMix` series: the two fixed categories filtered to the
strictly positive totals. -/
def paymentMixOf (jstr : JsVal → String) (parse : String → JsNum) (cfg : AggConfig)
    (rows : List Row) : List ChartItem :=
  [ChartItem.mk "SmartCard" (aggregate jstr parse cfg rows).smartCardTotal,
   ChartItem.mk "QR" (aggregate jstr parse cfg rows).qrTotal].filter
    (fun item => 0 < item.value)

/-- The full result of `buildChartData`. -/
structure BusAnalyticsChartData where
  hourly : List ChartItem
  topRoutes : List ChartItem
  operatorSplit : List ChartItem
  paymentMix : List ChartItem
deriving DecidableEq, Repr

/-- `buildChartData` given the resolved field configuration. -/
def buildChartData (jstr : JsVal → String) (parse : String → JsNum) (cfg : AggConfig)
    (rows : List Row) : BusAnalyticsChartData :=
  ⟨hourlyOf jstr parse cfg rows, topRoutesOf jstr parse cfg rows,
   operatorSplitOf jstr parse cfg rows, paymentMixOf jstr parse cfg rows⟩

/-- A concrete stand-in for the `Number(string)` builtin. -/
def parse0 : String → JsNum := fun _ => .nan

/-- A concrete stand-in for the `String(value)` builtin that collapses
everything to the empty string. -/
def jstr0 : JsVal → String := fun _ => ""

/-- A concrete stand-in for the `String(value)` builtin that is faithful
on strings (which is all JS guarantees we rely on for labels). -/
def jstrStr : JsVal → String := fun v =>
  match v with
  | .str s => s
  | _ => ""

/-- A row whose count field is `0` is skipped entirely by the loop. -/
theorem aggStep_of_nonpos (jstr : JsVal → String) (parse : String → JsNum)
    (cfg : AggConfig) (st : AggState) (row : Row)
    (h : countOf parse cfg row ≤ 0) :
    aggStep jstr parse cfg st row = st := by
  simp [aggStep, h]

theorem aggStep_smartCardTotal (jstr : JsVal → String) (parse : String → JsNum)
    (cfg : AggConfig) (st : AggState) (row : Row)
    (h : 0 < countOf parse cfg row) :
    (aggStep jstr parse cfg st row).smartCardTotal
      = st.smartCardTotal + smartValOf parse cfg row := by
  obtain ⟨hf, rf, tf, opf, sf, qf⟩ := cfg
  unfold aggStep
  rw [if_neg (not_le.mpr h)]
  cases hf <;> cases rf <;> cases opf <;> cases sf <;> cases qf <;>
    simp [smartValOf]

theorem aggStep_qrTotal (jstr : JsVal → String) (parse : String → JsNum)
    (cfg : AggConfig) (st : AggState) (row : Row)
    (h : 0 < countOf parse cfg row) :
    (aggStep jstr parse cfg st row).qrTotal
      = st.qrTotal + qrValOf parse cfg row := by
  obtain ⟨hf, rf, tf, opf, sf, qf⟩ := cfg
  unfold aggStep
  rw [if_neg (not_le.mpr h)]
  cases hf <;> cases rf <;> cases opf <;> cases sf <;> cases qf <;>
    simp [qrValOf]

/-- A fold whose step ignores elements rejected by `p` only sees the
filtered list. -/
theorem foldl_filter_of_skip {α β : Type} (f : β → α → β) (p : α → Bool)
    (hskip : ∀ b a, p a = false → f b a = b) :
    ∀ (l : List α) (b : β), l.foldl f b = (l.filter p).foldl f b := by
  intro l
  induction l with
  | nil => intro b; rfl
  | cons x xs ih =>
    intro b
    by_cases hx : p x = true
    · simp only [List.foldl_cons, List.filter_cons, hx, if_true]
      exact ih (f b x)
    · have hx' : p x = false := by simpa using hx
      simp only [List.foldl_cons, List.filter_cons, hx', Bool.false_eq_true, if_false,
        hskip b x hx']
      exact ih b

theorem foldl_smartCardTotal (jstr : JsVal → String) (parse : String → JsNum)
    (cfg : AggConfig) :
    ∀ (rows : List Row) (st : AggState),
      (∀ row ∈ rows, 0 < countOf parse cfg row) →
      (rows.foldl (aggStep jstr parse cfg) st).smartCardTotal
        = st.smartCardTotal + (rows.map (smartValOf parse cfg)).sum := by
  intro rows
  induction rows with
  | nil => intro st _; simp
  | cons x xs ih =>
    intro st hall
    have hx := hall x (List.mem_cons_self x xs)
    have hxs : ∀ row ∈ xs, 0 < countOf parse cfg row :=
      fun row hr => hall row (List.mem_cons_of_mem x hr)
    simp only [List.foldl_cons, List.map_cons, List.sum_cons]
    rw [ih (aggStep jstr parse cfg st x) hxs,
      aggStep_smartCardTotal jstr parse cfg st x hx]
    ring

theorem foldl_qrTotal (jstr : JsVal → String) (parse : String → JsNum)
    (cfg : AggConfig) :
    ∀ (rows : List Row) (st : AggState),
      (∀ row ∈ rows, 0 < countOf parse cfg row) →
      (rows.foldl (aggStep jstr parse cfg) st).qrTotal
        = st.qrTotal + (rows.map (qrValOf parse cfg)).sum := by
  intro rows
  induction rows with
  | nil => intro st _; simp
  | cons x xs ih =>
    intro st hall
    have hx := hall x (List.mem_cons_self x xs)
    have hxs : ∀ row ∈ xs, 0 < countOf parse cfg row :=
      fun row hr => hall row (List.mem_cons_of_mem x hr)
    simp only [List.foldl_cons, List.map_cons, List.sum_cons]
    rw [ih (aggStep jstr parse cfg st x) hxs,
      aggStep_qrTotal jstr parse cfg st x hx]
    ring

/-- The field configuration of the C1 counterexample: a count column
`"c"` and a smart-card column `"s"`. -/
def cfgC1 : AggConfig := ⟨none, none, some "c", none, some "s", none⟩

/-- One row whose count field is `0` but whose smart-card field is `5`. -/
def rowC1 : Row := [("c", .num (.fin 0)), ("s", .num (.fin 5))]

/-- C1 counterexample: on the single row with count `0` and smart-card
value `5`, the accumulated SmartCard total is NOT the sum of the
smart-card field over all rows — the row's `5` never reaches the total,
because the `continue` fires before the payment accumulation. -/
theorem aggregate_smartCard_not_independent :
    (aggregate jstr0 parse0 cfgC1 [rowC1]).smartCardTotal
      ≠ ([rowC1].map (fun row => (asNumber parse0 (rowGet row "s")).toQ)).sum := by
  simp [aggregate, aggStep, countOf, cfgC1, rowC1, rowGet, assocGet, asNumber,
    JsNum.toQ, JsNum.isFinite, AggState.init, List.foldl]

/-- C1 (amended): a row whose count field coerces to a value ≤ 0 is
skipped from the whole loop body — the hourly/route/operator groupings
AND the SmartCard/QR payment totals alike; the payment totals equal the
sums of those fields over the rows whose count coerces to a positive
value. -/
theorem aggregate_skips_nonpositive_rows (jstr : JsVal → String)
    (parse : String → JsNum) (cfg : AggConfig) (rows : List Row) :
    aggregate jstr parse cfg rows
      = aggregate jstr parse cfg (rows.filter (fun row => 0 < countOf parse cfg row))
    ∧ (aggregate jstr parse cfg rows).smartCardTotal
      = ((rows.filter (fun row => 0 < countOf parse cfg row)).map (smartValOf parse cfg)).sum
    ∧ (aggregate jstr parse cfg rows).qrTotal
      = ((rows.filter (fun row => 0 < countOf parse cfg row)).map (qrValOf parse cfg)).sum := by
  have hskip : ∀ (st : AggState) (row : Row),
      (decide (0 < countOf parse cfg row)) = false →
      aggStep jstr parse cfg st row = st := by
    intro st row hrow
    exact aggStep_of_nonpos jstr parse cfg st row (not_lt.mp (of_decide_eq_false hrow))
  have hfilter := foldl_filter_of_skip (aggStep jstr parse cfg)
    (fun row => 0 < countOf parse cfg row) hskip rows AggState.init
  have hall : ∀ row ∈ rows.filter (fun row => 0 < countOf parse cfg row),
      0 < countOf parse cfg row := by
    intro row hr
    exact of_decide_eq_true (List.mem_filter.mp hr).2
  refine ⟨hfilter, ?_, ?_⟩
  · rw [show aggregate jstr parse cfg rows
        = aggregate jstr parse cfg (rows.filter (fun row => 0 < countOf parse cfg row)) from hfilter]
    have := foldl_smartCardTotal jstr parse cfg
      (rows.filter (fun row => 0 < countOf parse cfg row)) AggState.init hall
    simpa [aggregate, AggState.init] using this
  · rw [show aggregate jstr parse cfg rows
        = aggregate jstr parse cfg (rows.filter (fun row => 0 < countOf parse cfg row)) from hfilter]
    have := foldl_qrTotal jstr parse cfg
      (rows.filter (fun row => 0 < countOf parse cfg row)) AggState.init hall
    simpa [aggregate, AggState.init] using this

/-- The field configuration of the C8 example. -/
def cfgPM : AggConfig := ⟨none, none, some "c", none, some "s", some "q"⟩

/-- One row with positive count, SmartCard `0` and QR `5`. -/
def rowPM : Row := [("c", .num (.fin 1)), ("s", .num (.fin 0)), ("q", .num (.fin 5))]

/-- C8: `paymentMix` never contains a zero-or-negative entry (zero-total
categories are dropped), and with totals SmartCard = 0 and QR = 5 the
output is exactly `[{label: "QR", value: 5}]`. -/
theorem paymentMix_positive (jstr : JsVal → String) (parse : String → JsNum)
    (cfg : AggConfig) (rows : List Row) :
    (∀ item ∈ paymentMixOf jstr parse cfg rows, 0 < item.value)
    ∧ paymentMixOf jstr0 parse0 cfgPM [rowPM] = [ChartItem.mk "QR" 5] := by
  constructor
  · intro item hmem
    exact of_decide_eq_true (List.mem_filter.mp hmem).2
  · simp [paymentMixOf, aggregate, aggStep, countOf, cfgPM, rowPM, rowGet,
      assocGet, asNumber, JsNum.toQ, JsNum.isFinite, AggState.init, List.foldl,
      List.filter_cons, (by norm_num : ¬((1:ℚ) ≤ 0)),
      (by norm_num : ¬((0:ℚ) < 0)), (by norm_num : (0:ℚ) < 5)]

/-- Witness for `paymentMix_positive` at a concrete member. -/
theorem paymentMix_positive_witness :
    (ChartItem.mk "QR" (5 : ℚ)) ∈ paymentMixOf jstr0 parse0 cfgPM [rowPM]
    ∧ 0 < (ChartItem.mk "QR" (5 : ℚ)).value :=
  ⟨by simp [paymentMixOf, aggregate, aggStep, countOf, cfgPM, rowPM, rowGet,
      assocGet, asNumber, JsNum.toQ, JsNum.isFinite, AggState.init, List.foldl,
      List.filter_cons, (by norm_num : ¬((1:ℚ) ≤ 0)),
      (by norm_num : ¬((0:ℚ) < 0)), (by norm_num : (0:ℚ) < 5)],
   (paymentMix_positive jstr0 parse0 cfgPM [rowPM]).1 _
     (by simp [paymentMixOf, aggregate, aggStep, countOf, cfgPM, rowPM, rowGet,
       assocGet, asNumber, JsNum.toQ, JsNum.isFinite, AggState.init, List.foldl,
       List.filter_cons, (by norm_num : ¬((1:ℚ) ≤ 0)),
       (by norm_num : ¬((0:ℚ) < 0)), (by norm_num : (0:ℚ) < 5)])⟩

end Ayna

namespace Ayna

theorem valueDesc_trans (a b c : String × ℚ) :
    valueDesc a b → valueDesc b c → valueDesc a c := by
  simp only [valueDesc, decide_eq_true_eq]
  exact fun h1 h2 => le_trans h2 h1

theorem valueDesc_total (a b : String × ℚ) :
    valueDesc a b || valueDesc b a := by
  simp only [valueDesc, Bool.or_eq_true, decide_eq_true_eq]
  exact le_total b.2 a.2

/-- C7: the `topRoutes` series always has length ≤ 12, and whenever the
aggregated route totals contain at least 13 entries with pairwise
distinct positive values, the output has length exactly 12, its values
are sorted strictly descending, are all positive, and consist of the 12
largest totals (every total left out is smaller than every output
value). -/
theorem topRoutes_spec (jstr : JsVal → String) (parse : String → JsNum)
    (cfg : AggConfig) (rows : List Row) :
    (topRoutesOf jstr parse cfg rows).length ≤ 12
    ∧ (13 ≤ (routeTotalsOf jstr parse cfg rows).length →
       ((routeTotalsOf jstr parse cfg rows).map Prod.snd).Nodup →
       (∀ p ∈ routeTotalsOf jstr parse cfg rows, 0 < p.2) →
         (topRoutesOf jstr parse cfg rows).length = 12
         ∧ ((topRoutesOf jstr parse cfg rows).map ChartItem.value).Pairwise (fun a b => b < a)
         ∧ (∀ x ∈ (topRoutesOf jstr parse cfg rows).map ChartItem.value, 0 < x)
         ∧ (∀ y ∈ (routeTotalsOf jstr parse cfg rows).map Prod.snd,
              y ∉ (topRoutesOf jstr parse cfg rows).map ChartItem.value →
              ∀ x ∈ (topRoutesOf jstr parse cfg rows).map ChartItem.value, y < x)) := by
  set rt : List (String × ℚ) := routeTotalsOf jstr parse cfg rows with hrt
  set s : List (String × ℚ) := rt.mergeSort valueDesc with hs
  have htop : topRoutesOf jstr parse cfg rows = (s.take 12).map (fun p => ChartItem.mk p.1 p.2) := rfl
  have hperm : List.Perm s rt := List.mergeSort_perm rt valueDesc
  constructor
  · rw [htop]
    simp only [List.length_map]
    have := List.length_take_le 12 s
    omega
  · intro h13 hnd hpos
    have hsorted : s.Pairwise (fun a b => b.2 ≤ a.2) := by
      have h := List.sorted_mergeSort valueDesc_trans valueDesc_total rt
      rw [← hs] at h
      exact h.imp (fun hab => by simpa [valueDesc] using hab)
    have hne : s.Pairwise (fun a b : String × ℚ => a.2 ≠ b.2) := by
      have h1 : rt.Pairwise (fun a b => a.2 ≠ b.2) := List.pairwise_map.mp hnd
      exact (hperm.pairwise_iff (fun {a b} h => h.symm)).mpr h1
    have hstrict : s.Pairwise (fun a b => b.2 < a.2) :=
      (hsorted.and hne).imp (fun hab => lt_of_le_of_ne hab.1 hab.2.symm)
    have hslen : s.length = rt.length := hperm.length_eq
    have hlen12 : (s.take 12).length = 12 := by
      rw [List.length_take]
      omega
    have hvals : (topRoutesOf jstr parse cfg rows).map ChartItem.value
        = (s.take 12).map Prod.snd := by
      rw [htop, List.map_map]
      rfl
    have hsplitPW : ((s.take 12) ++ (s.drop 12)).Pairwise (fun a b => b.2 < a.2) := by
      rw [List.take_append_drop]
      exact hstrict
    have hcross := (List.pairwise_append.mp hsplitPW).2.2
    refine ⟨?_, ?_, ?_, ?_⟩
    · rw [htop]
      simp only [List.length_map]
      exact hlen12
    · rw [hvals]
      exact List.pairwise_map.mpr (hstrict.sublist (List.take_sublist 12 s))
    · intro x hx
      rw [hvals] at hx
      obtain ⟨p, hp, hpx⟩ := List.mem_map.mp hx
      have hpmem : p ∈ rt := hperm.mem_iff.mp ((List.take_sublist 12 s).subset hp)
      exact hpx ▸ hpos p hpmem
    · intro y hy hyout x hx
      rw [hvals] at hx hyout
      obtain ⟨a, ha, hax⟩ := List.mem_map.mp hx
      obtain ⟨p, hp, hpy⟩ := List.mem_map.mp hy
      have hps : p ∈ s := hperm.mem_iff.mpr hp
      have hsplit : p ∈ (s.take 12) ++ (s.drop 12) := by
        rw [List.take_append_drop]
        exact hps
      rcases List.mem_append.mp hsplit with hin | hout
      · exact absurd (hpy ▸ List.mem_map_of_mem Prod.snd hin) hyout
      · have := hcross a ha p hout
        rw [hax] at this
        rw [← hpy]
        exact this

end Ayna

namespace Ayna

def cfg13 : AggConfig := ⟨none, some "r", some "c", none, none, none⟩

def labeledRow (label : String) (n : ℚ) : Row := [("r", .str label), ("c", .num (.fin n))]

def rows13 : List Row :=
  [labeledRow "Ra" 1, labeledRow "Rb" 2, labeledRow "Rc" 3, labeledRow "Rd" 4,
   labeledRow "Re" 5, labeledRow "Rf" 6, labeledRow "Rg" 7, labeledRow "Rh" 8,
   labeledRow "Ri" 9, labeledRow "Rj" 10, labeledRow "Rk" 11, labeledRow "Rl" 12,
   labeledRow "Rm" 13]

theorem topRoutes_spec_witness :
    (topRoutesOf jstrStr parse0 cfg13 rows13).length = 12 :=
  ((topRoutes_spec jstrStr parse0 cfg13 rows13).2
    (by simp [routeTotalsOf, aggregate, aggStep, countOf, cfg13, rows13, labeledRow, rowGet,
      assocGet, asNumber, JsNum.toQ, JsNum.isFinite, AggState.init, List.foldl,
      totalsGet, assocSet, nullishOr, jstrStr, parse0,
      (by norm_num : ¬((1:ℚ) ≤ 0)), (by norm_num : ¬((2:ℚ) ≤ 0)), (by norm_num : ¬((3:ℚ) ≤ 0)),
      (by norm_num : ¬((4:ℚ) ≤ 0)), (by norm_num : ¬((5:ℚ) ≤ 0)), (by norm_num : ¬((6:ℚ) ≤ 0)),
      (by norm_num : ¬((7:ℚ) ≤ 0)), (by norm_num : ¬((8:ℚ) ≤ 0)), (by norm_num : ¬((9:ℚ) ≤ 0)),
      (by norm_num : ¬((10:ℚ) ≤ 0)), (by norm_num : ¬((11:ℚ) ≤ 0)), (by norm_num : ¬((12:ℚ) ≤ 0)),
      (by norm_num : ¬((13:ℚ) ≤ 0))])
    (by simp [routeTotalsOf, aggregate, aggStep, countOf, cfg13, rows13, labeledRow, rowGet,
      assocGet, asNumber, JsNum.toQ, JsNum.isFinite, AggState.init, List.foldl,
      totalsGet, assocSet, nullishOr, jstrStr, parse0,
      (by norm_num : ¬((1:ℚ) ≤ 0)), (by norm_num : ¬((2:ℚ) ≤ 0)), (by norm_num : ¬((3:ℚ) ≤ 0)),
      (by norm_num : ¬((4:ℚ) ≤ 0)), (by norm_num : ¬((5:ℚ) ≤ 0)), (by norm_num : ¬((6:ℚ) ≤ 0)),
      (by norm_num : ¬((7:ℚ) ≤ 0)), (by norm_num : ¬((8:ℚ) ≤ 0)), (by norm_num : ¬((9:ℚ) ≤ 0)),
      (by norm_num : ¬((10:ℚ) ≤ 0)), (by norm_num : ¬((11:ℚ) ≤ 0)), (by norm_num : ¬((12:ℚ) ≤ 0)),
      (by norm_num : ¬((13:ℚ) ≤ 0))])
    (by simp [routeTotalsOf, aggregate, aggStep, countOf, cfg13, rows13, labeledRow, rowGet,
      assocGet, asNumber, JsNum.toQ, JsNum.isFinite, AggState.init, List.foldl,
      totalsGet, assocSet, nullishOr, jstrStr, parse0,
      (by norm_num : ¬((1:ℚ) ≤ 0)), (by norm_num : ¬((2:ℚ) ≤ 0)), (by norm_num : ¬((3:ℚ) ≤ 0)),
      (by norm_num : ¬((4:ℚ) ≤ 0)), (by norm_num : ¬((5:ℚ) ≤ 0)), (by norm_num : ¬((6:ℚ) ≤ 0)),
      (by norm_num : ¬((7:ℚ) ≤ 0)), (by norm_num : ¬((8:ℚ) ≤ 0)), (by norm_num : ¬((9:ℚ) ≤ 0)),
      (by norm_num : ¬((10:ℚ) ≤ 0)), (by norm_num : ¬((11:ℚ) ≤ 0)), (by norm_num : ¬((12:ℚ) ≤ 0)),
      (by norm_num : ¬((13:ℚ) ≤ 0)),
      (by norm_num : (0:ℚ) < 1), (by norm_num : (0:ℚ) < 2), (by norm_num : (0:ℚ) < 3),
      (by norm_num : (0:ℚ) < 4), (by norm_num : (0:ℚ) < 5), (by norm_num : (0:ℚ) < 6),
      (by norm_num : (0:ℚ) < 7), (by norm_num : (0:ℚ) < 8), (by norm_num : (0:ℚ) < 9),
      (by norm_num : (0:ℚ) < 10), (by norm_num : (0:ℚ) < 11), (by norm_num : (0:ℚ) < 12),
      (by norm_num : (0:ℚ) < 13)])).1

end Ayna

namespace Ayna

/-! ## CSV normalization engine (`busAnalyticsWorker.ts` `onmessage`) -/

/-- `getColumnKeys`: the ordered set (first-appearance order) of all
non-blank keys across all records. -/
def getColumnKeys (records : List (List (String × JsVal))) : List String :=
  records.foldl (fun keys record =>
    (record.map Prod.fst).foldl (fun ks key =>
      if 0 < key.trim.length then (if ks.contains key then ks else ks ++ [key]) else ks)
      keys) []

/-- `normalizeCell`; `fmt` models `formatDateTime` and `jstr` the
`String(value)` builtin. -/
def normalizeCell (fmt : JsVal → String) (jstr : JsVal → String)
    (value : JsVal) (formatAsDate : Bool) : JsVal :=
  if formatAsDate then .str (fmt value)
  else
    match value with
    | .num n => if n.isFinite then .num n else .num (.fin 0)
    | .str s => .str s
    | .bool b => .bool b
    | .null => .null
    | .undefined => .null
    | .date t => .str (fmt (.date t))
    | .arr elems => .str (jstr (.arr elems))
    | .obj props => .str (jstr (.obj props))

/-- `normalizeRow`: build the cell object field by field, then spread in
the 1-based `id` (`{...row, id}`). -/
def normalizeRow (fmt : JsVal → String) (jstr : JsVal → String)
    (record : List (String × JsVal)) (fields : List String)
    (dateFields : List String) (id : ℕ) : Row :=
  assocSet
    (fields.foldl (fun row field =>
      assocSet row field (normalizeCell fmt jstr (rowGet record field) (dateFields.contains field)))
      [])
    "id" (.num (.fin id))

/-- `records.map((record, index) => normalizeRow(record, fields, dateFields, index + 1))`. -/
def normalizeRows (fmt : JsVal → String) (jstr : JsVal → String)
    (records : List (List (String × JsVal))) (fields : List String)
    (dateFields : List String) : List Row :=
  records.enum.map (fun p => normalizeRow fmt jstr p.2 fields dateFields (p.1 + 1))

theorem assocGet_assocSet_self {κ α : Type} [DecidableEq κ]
    (m : List (κ × α)) (k : κ) (v : α) :
    assocGet (assocSet m k v) k = some v := by
  induction m with
  | nil => simp [assocGet, assocSet]
  | cons hd tl ih =>
    obtain ⟨k0, v0⟩ := hd
    by_cases hk : k0 = k
    · simp [assocSet, assocGet, hk]
    · simp [assocSet, assocGet, hk, ih]

theorem rowGet_normalizeRow_id (fmt : JsVal → String) (jstr : JsVal → String)
    (record : List (String × JsVal)) (fields : List String)
    (dateFields : List String) (id : ℕ) :
    rowGet (normalizeRow fmt jstr record fields dateFields id) "id" = .num (.fin id) := by
  simp [normalizeRow, rowGet, assocGet_assocSet_self]

/-- C5: normalization produces exactly one output row per input record,
in input order, and the `id` fields are exactly `1..N` assigned by
1-based ordinal position. -/
theorem normalizeRows_count_and_ids (fmt : JsVal → String) (jstr : JsVal → String)
    (records : List (List (String × JsVal))) (fields : List String)
    (dateFields : List String) :
    (normalizeRows fmt jstr records fields dateFields).length = records.length
    ∧ (normalizeRows fmt jstr records fields dateFields).map (fun row => rowGet row "id")
      = (List.range records.length).map (fun i => JsVal.num (.fin ((i + 1 : ℕ) : ℚ))) := by
  constructor
  · simp [normalizeRows]
  · have h2 : List.range records.length = records.enum.map Prod.fst :=
      (List.enum_map_fst records).symm
    rw [normalizeRows, List.map_map, h2, List.map_map]
    have h3 : ((fun row => rowGet row "id") ∘ fun p : ℕ × List (String × JsVal) =>
        normalizeRow fmt jstr p.2 fields dateFields (p.1 + 1))
        = ((fun i => JsVal.num (.fin ((i + 1 : ℕ) : ℚ))) ∘ Prod.fst) := by
      funext p
      simp only [Function.comp_apply]
      exact rowGet_normalizeRow_id fmt jstr p.2 fields dateFields (p.1 + 1)
    rw [h3]

end Ayna

namespace Ayna

/-! ## Geometry/feature normalizer (`normalizeRoutePayload` and friends) -/

/-- `isLineCoordinates`: a non-empty array of numeric pairs (length ≥ 2,
every component a JS number). -/
def isLineCoordinates (value : JsVal) : Bool :=
  match value with
  | .arr pts =>
    !pts.isEmpty && pts.all (fun point =>
      match point with
      | .arr cs => decide (2 ≤ cs.length) && cs.all isNumberVal
      | _ => false)
  | _ => false

/-- `isMultiLineCoordinates`: a non-empty array of line-coordinates. -/
def isMultiLineCoordinates (value : JsVal) : Bool :=
  match value with
  | .arr lines => !lines.isEmpty && lines.all isLineCoordinates
  | _ => false

/-- `RouteGeometry`: LineString or MultiLineString, carrying the raw
coordinates value that validated. -/
inductive RouteGeometry where
  | lineString (coordinates : JsVal)
  | multiLineString (coordinates : JsVal)

/-- The canonical route feature (`type: 'Feature'` is implicit). -/
structure RouteFeature where
  geometry : RouteGeometry
  properties : JsVal

/-- The explicit `input.geometry.{type, coordinates}` resolution arm of
`resolveGeometry`. -/
def geomFromGeometryField (input : JsVal) : Option RouteGeometry :=
  if isRecord (getField input "geometry") then
    if strictEqStr (getField (getField input "geometry") "type") "LineString"
        && isLineCoordinates (getField (getField input "geometry") "coordinates") then
      some (.lineString (getField (getField input "geometry") "coordinates"))
    else if strictEqStr (getField (getField input "geometry") "type") "MultiLineString"
        && isMultiLineCoordinates (getField (getField input "geometry") "coordinates") then
      some (.multiLineString (getField (getField input "geometry") "coordinates"))
    else none
  else none

/-- The `for (const candidate of coordinateCandidates)` probing loop. -/
def geomFromCandidates : List JsVal → Option RouteGeometry
  | [] => none
  | candidate :: rest =>
    if isMultiLineCoordinates candidate then some (.multiLineString candidate)
    else if isLineCoordinates candidate then some (.lineString candidate)
    else geomFromCandidates rest

/-- `resolveGeometry`: explicit geometry field first, then the
`coordinates`/`path`/`route`/`polyline` candidates in order. -/
def resolveGeometry (input : JsVal) : Option RouteGeometry :=
  match geomFromGeometryField input with
  | some g => some g
  | none =>
    geomFromCandidates
      [getField input "coordinates", getField input "path",
       getField input "route", getField input "polyline"]

/-- `{...input}` on the records we model. -/
def spreadProps : JsVal → List (String × JsVal)
  | .obj props => props
  | _ => []

/-- `createRouteFeature`. -/
def createRouteFeature (jstr : JsVal → String) (input : JsVal) (index : ℕ) :
    Option RouteFeature :=
  if !isRecord input then none
  else
    match resolveGeometry input with
    | none => none
    | some geometry =>
      let id := nullishOr (getField input "id")
        (nullishOr (getField input "route_id") (.num (.fin ((index : ℚ) + 1))))
      let name := nullishOr (getField input "name")
        (nullishOr (getField input "route_name")
          (nullishOr (getField input "number") (.str ("Route " ++ jstr id))))
      some { geometry := geometry,
             properties := .obj (assocSet (assocSet (spreadProps input) "id" id) "name" name) }

/-- `isRouteFeatureCollection`. -/
def isRouteFeatureCollection (payload : JsVal) : Bool :=
  isRecord payload && strictEqStr (getField payload "type") "FeatureCollection"
    && isArr (getField payload "features")

/-- `extractArray`. -/
def extractArray (payload : JsVal) : List JsVal :=
  match payload with
  | .arr items => items
  | _ =>
    if isRecord payload = false then []
    else
      match getField payload "data" with
      | .arr items => items
      | nestedCandidate =>
        match getField nestedCandidate "routes" with
        | .arr items => items
        | _ =>
          match getField payload "routes" with
          | .arr items => items
          | _ => []

/-- The element mapping + filtering of `normalizeRoutePayload`. -/
def normalizeRouteItems (jstr : JsVal → String) (items : List JsVal) : List RouteFeature :=
  (items.enum.map (fun p => createRouteFeature jstr p.2 p.1)).reduceOption

/-- The two-point element of the specification example. -/
def twoPointInput : JsVal :=
  .obj [("coordinates", .arr [.arr [.num (.fin 49.8), .num (.fin 40.4)],
                              .arr [.num (.fin 49.9), .num (.fin 40.5)]])]

/-- A one-coordinate-pair element. -/
def onePointInput : JsVal :=
  .obj [("coordinates", .arr [.arr [.num (.fin 49.8), .num (.fin 40.4)]])]

/-- A concrete element that also carries explicit `id`/`name` props. -/
def richLineInput : JsVal :=
  .obj [("id", .num (.fin 7)), ("name", .str "L"),
        ("coordinates", .arr [.arr [.num (.fin 1), .num (.fin 2)]])]

theorem isLineCoordinates_spec (value : JsVal) (h : isLineCoordinates value = true) :
    ∃ pts, value = .arr pts ∧ 0 < pts.length
      ∧ ∀ p ∈ pts, ∃ cs, p = .arr cs ∧ 2 ≤ cs.length ∧ ∀ c ∈ cs, isNumberVal c = true := by
  cases value with
  | arr pts =>
    simp only [isLineCoordinates, Bool.and_eq_true, List.all_eq_true] at h
    refine ⟨pts, rfl, ?_, ?_⟩
    · cases pts with
      | nil => simp [List.isEmpty] at h
      | cons a l => simp
    · intro p hp
      have hpt := h.2 p hp
      cases p with
      | arr cs =>
        simp only [Bool.and_eq_true, decide_eq_true_eq, List.all_eq_true] at hpt
        exact ⟨cs, rfl, hpt.1, hpt.2⟩
      | num n => exact absurd hpt (by simp)
      | str s => exact absurd hpt (by simp)
      | bool b => exact absurd hpt (by simp)
      | null => exact absurd hpt (by simp)
      | undefined => exact absurd hpt (by simp)
      | date t => exact absurd hpt (by simp)
      | obj props => exact absurd hpt (by simp)
  | num n => exact absurd h (by simp [isLineCoordinates])
  | str s => exact absurd h (by simp [isLineCoordinates])
  | bool b => exact absurd h (by simp [isLineCoordinates])
  | null => exact absurd h (by simp [isLineCoordinates])
  | undefined => exact absurd h (by simp [isLineCoordinates])
  | date t => exact absurd h (by simp [isLineCoordinates])
  | obj props => exact absurd h (by simp [isLineCoordinates])

theorem geomFromCandidates_lineString :
    ∀ (cands : List JsVal) (coords : JsVal),
      geomFromCandidates cands = some (.lineString coords) →
      isLineCoordinates coords = true := by
  intro cands
  induction cands with
  | nil => intro coords h; simp [geomFromCandidates] at h
  | cons c rest ih =>
    intro coords h
    unfold geomFromCandidates at h
    by_cases h1 : isMultiLineCoordinates c = true
    · rw [if_pos h1] at h
      simp at h
    · rw [if_neg h1] at h
      by_cases h2 : isLineCoordinates c = true
      · rw [if_pos h2] at h
        simp only [Option.some.injEq, RouteGeometry.lineString.injEq] at h
        exact h ▸ h2
      · rw [if_neg h2] at h
        exact ih coords h

theorem geomFromGeometryField_lineString (input : JsVal) (coords : JsVal)
    (h : geomFromGeometryField input = some (.lineString coords)) :
    isLineCoordinates coords = true := by
  unfold geomFromGeometryField at h
  split at h
  · split at h
    · rename_i hcond
      simp only [Bool.and_eq_true] at hcond
      simp only [Option.some.injEq, RouteGeometry.lineString.injEq] at h
      exact h ▸ hcond.2
    · split at h
      · simp at h
      · simp at h
  · simp at h

theorem resolveGeometry_lineString (input : JsVal) (coords : JsVal)
    (h : resolveGeometry input = some (.lineString coords)) :
    isLineCoordinates coords = true := by
  unfold resolveGeometry at h
  cases hG : geomFromGeometryField input with
  | some g =>
    rw [hG] at h
    simp only [Option.some.injEq] at h
    exact geomFromGeometryField_lineString input coords (by rw [hG, h])
  | none =>
    rw [hG] at h
    exact geomFromCandidates_lineString _ coords h

theorem createRouteFeature_some_geometry (jstr : JsVal → String) (input : JsVal)
    (index : ℕ) (f : RouteFeature)
    (hf : createRouteFeature jstr input index = some f) :
    resolveGeometry input = some f.geometry := by
  unfold createRouteFeature at hf
  split at hf
  · simp at hf
  · cases hR : resolveGeometry input with
    | none => rw [hR] at hf; simp at hf
    | some g =>
      rw [hR] at hf
      simp only [Option.some.injEq] at hf
      rw [← hf]

/-- C2 counterexample: the one-coordinate-pair element is NOT filtered
out — it yields a LineString feature whose geometry has exactly one
coordinate pair (`isLineCoordinates` only rejects empty arrays). -/
theorem createRouteFeature_one_point_not_dropped :
    createRouteFeature jstrStr onePointInput 0 ≠ none
    ∧ ∃ f, createRouteFeature jstrStr onePointInput 0 = some f
        ∧ f.geometry = .lineString (.arr [.arr [.num (.fin 49.8), .num (.fin 40.4)]]) := by
  have hex : ∃ f, createRouteFeature jstrStr onePointInput 0 = some f
      ∧ f.geometry = .lineString (.arr [.arr [.num (.fin 49.8), .num (.fin 40.4)]]) :=
    ⟨_, rfl, rfl⟩
  refine ⟨?_, hex⟩
  intro h
  obtain ⟨f, hf, _⟩ := hex
  rw [h] at hf
  exact Option.noConfusion hf

/-- C2 (amended): the two-point example yields a LineString feature with
exactly those 2 points; a one-pair candidate yields a LineString
feature with that single pair (it is NOT filtered out); and every
produced feature with LineString geometry carries a non-empty (≥ 1)
ordered sequence of numeric coordinate pairs. -/
theorem createRouteFeature_line_geometry (jstr : JsVal → String) (input : JsVal)
    (index : ℕ) (f : RouteFeature) (coords : JsVal)
    (hf : createRouteFeature jstr input index = some f)
    (hg : f.geometry = .lineString coords) :
    (∃ pts, coords = .arr pts ∧ 0 < pts.length
      ∧ ∀ p ∈ pts, ∃ cs, p = .arr cs ∧ 2 ≤ cs.length ∧ ∀ c ∈ cs, isNumberVal c = true)
    ∧ (∃ f2, createRouteFeature jstrStr twoPointInput 0 = some f2
        ∧ f2.geometry = .lineString (.arr [.arr [.num (.fin 49.8), .num (.fin 40.4)],
            .arr [.num (.fin 49.9), .num (.fin 40.5)]]))
    ∧ (∃ f1, createRouteFeature jstrStr onePointInput 0 = some f1
        ∧ f1.geometry = .lineString (.arr [.arr [.num (.fin 49.8), .num (.fin 40.4)]])) := by
  refine ⟨?_, ⟨_, rfl, rfl⟩, ⟨_, rfl, rfl⟩⟩
  have h1 := createRouteFeature_some_geometry jstr input index f hf
  rw [hg] at h1
  exact isLineCoordinates_spec coords (resolveGeometry_lineString input coords h1)

/-- Witness for `createRouteFeature_line_geometry` at a concrete
feature. -/
theorem createRouteFeature_line_geometry_witness :
    ∃ pts, (JsVal.arr [.arr [.num (.fin 1), .num (.fin 2)]]) = .arr pts ∧ 0 < pts.length
      ∧ ∀ p ∈ pts, ∃ cs, p = .arr cs ∧ 2 ≤ cs.length ∧ ∀ c ∈ cs, isNumberVal c = true :=
  (createRouteFeature_line_geometry jstrStr richLineInput 0
    ⟨.lineString (.arr [.arr [.num (.fin 1), .num (.fin 2)]]),
     .obj [("id", .num (.fin 7)), ("name", .str "L"),
           ("coordinates", .arr [.arr [.num (.fin 1), .num (.fin 2)]])]⟩
    (.arr [.arr [.num (.fin 1), .num (.fin 2)]]) rfl rfl).1

end Ayna

namespace Ayna

/-! ## Resilient data source facade (bus list / bus details / batches) -/

/-- The result tag: `'live-api' | 'snapshot-fallback'`. -/
inductive Source where
  | liveApi
  | snapshotFallback
deriving DecidableEq, Repr

/-- `DEFAULT_AYNA_API_BASE`. -/
def DEFAULT_AYNA_API_BASE : String := "https://map-api.ayna.gov.az"

/-- `BUS_LIST_CACHE_TTL_MS = 5 * 60 * 1000`. -/
def BUS_LIST_CACHE_TTL_MS : ℚ := 5 * 60 * 1000

/-- `BUS_DETAILS_CACHE_TTL_MS = 90 * 1000`. -/
def BUS_DETAILS_CACHE_TTL_MS : ℚ := 90 * 1000

/-- The network/fetch oracle: URL to JSON outcome. `.error` models a
rejected request (network failure, timeout, thrown non-2xx status). -/
abbrev Net := String → Except Unit JsVal

/-- `sanitizeBaseUrl`. -/
def sanitizeBaseUrl (baseUrl : String) : String :=
  if baseUrl.trim.length = 0 then DEFAULT_AYNA_API_BASE
  else if baseUrl.trim.endsWith "/" then baseUrl.trim.dropRight 1
  else baseUrl.trim

/-- `getApiBaseCandidates`. -/
def getApiBaseCandidates (baseUrl : Option String) : List String :=
  match baseUrl with
  | some s => if 0 < s.trim.length then [s] else ["/ayna-api", DEFAULT_AYNA_API_BASE]
  | none => ["/ayna-api", DEFAULT_AYNA_API_BASE]

/-- `getBusList`: a non-array body resolves to the empty list (it is not
an error). -/
def getBusList (net : Net) (baseUrl : String) : Except Unit (List JsVal) :=
  match net (baseUrl ++ "/api/bus/getBusList") with
  | .error e => .error e
  | .ok data =>
    match data with
    | .arr xs => .ok xs
    | _ => .ok []

/-- `getBusById`: `jstr` models the number-to-string template coercion. -/
def getBusById (net : Net) (jstr : JsVal → String) (baseUrl : String) (id : JsNum) :
    Except Unit JsVal :=
  net (baseUrl ++ "/api/bus/getBusById?id=" ++ jstr (.num id))

/-- `AynaBusSummary`. -/
structure AynaBusSummary where
  id : JsNum
  number : String
deriving DecidableEq, Repr

/-- The filter + map from raw bus-list items to summaries inside
`loadAynaBusList` (live path: ids must be finite numbers). -/
def busListToSummaries (jstr : JsVal → String) (list : List JsVal) : List AynaBusSummary :=
  (list.filter (fun item => isFiniteNumVal (getField item "id"))).map (fun item =>
    { id := match getField item "id" with
        | .num n => n
        | _ => .nan,
      number := match getField item "number" with
        | .str s => if 0 < s.trim.length then s else jstr (getField item "id")
        | _ => jstr (getField item "id") })

/-- `loadBusListSnapshot` over the snapshot fetch outcome: missing file
(`.error`, i.e. `!response.ok`) or a non-array body degrade to `[]`. -/
def loadBusListSnapshot (jstr : JsVal → String) (snap : Except Unit JsVal) :
    List AynaBusSummary :=
  match snap with
  | .error _ => []
  | .ok payload =>
    match payload with
    | .arr items =>
      (items.filter (fun item => isRecord item && isNumberVal (getField item "id"))).map
        (fun item =>
          { id := match getField item "id" with
              | .num n => n
              | _ => .nan,
            number := match getField item "number" with
              | .str s => if 0 < s.trim.length then s else jstr (getField item "id")
              | _ => jstr (getField item "id") })
    | _ => []

/-- The single-slot bus-list cache entry. -/
structure BusListCacheEntry where
  data : List AynaBusSummary
  expiresAt : ℚ

/-- The resolved value of `loadAynaBusList`. -/
structure BusListResult where
  buses : List AynaBusSummary
  source : Source

/-- The candidate-URL loop of `loadAynaBusList`; exhaustion falls back
to the snapshot and leaves the cache untouched. -/
def busListGo (net : Net) (jstr : JsVal → String) (snap : Except Unit JsVal)
    (now : ℚ) (cache : Option BusListCacheEntry) :
    List String → BusListResult × Option BusListCacheEntry
  | [] => (⟨loadBusListSnapshot jstr snap, .snapshotFallback⟩, cache)
  | baseUrl :: rest =>
    match getBusList net (sanitizeBaseUrl baseUrl) with
    | .error _ => busListGo net jstr snap now cache rest
    | .ok list =>
      let buses := busListToSummaries jstr list
      (⟨buses, .liveApi⟩, some ⟨buses, now + BUS_LIST_CACHE_TTL_MS⟩)

/-- `loadAynaBusList` with injectable clock and explicit cache state. -/
def loadAynaBusList (net : Net) (jstr : JsVal → String) (snap : Except Unit JsVal)
    (apiBaseUrl : Option String) (now : ℚ) (cache : Option BusListCacheEntry) :
    BusListResult × Option BusListCacheEntry :=
  match cache with
  | some entry =>
    if now < entry.expiresAt then (⟨entry.data, .liveApi⟩, cache)
    else busListGo net jstr snap now cache (getApiBaseCandidates apiBaseUrl)
  | none => busListGo net jstr snap now cache (getApiBaseCandidates apiBaseUrl)

/-- Strict equality `===` on JS numbers (`NaN === NaN` is false). -/
def jsNumStrictEq (a b : JsNum) : Bool :=
  match a, b with
  | .fin p, .fin q => p == q
  | .posInf, .posInf => true
  | .negInf, .negInf => true
  | _, _ => false

/-- `loadBusByIdSnapshot`: throws when the snapshot file is missing;
returns the payload when its `id` matches, else the
`{id: busId, number: String(busId), routes: []}` stub. -/
def loadBusByIdSnapshot (jstr : JsVal → String) (snap : Except Unit JsVal)
    (busId : JsNum) : Except Unit JsVal :=
  match snap with
  | .error _ => .error ()
  | .ok payload =>
    if (match getField payload "id" with
        | .num n => jsNumStrictEq n busId
        | _ => false) then .ok payload
    else .ok (.obj [("id", .num busId), ("number", .str (jstr (.num busId))),
        ("routes", .arr [])])

/-- `AynaBusDetails`. -/
structure AynaBusDetails where
  id : JsNum
  number : String
  carrier : Option String
  firstPoint : Option String
  lastPoint : Option String
  tariffStr : Option String
  durationMinuts : Option JsNum
  features : List RouteFeature
  source : Source

/-- One route entry of `mapBusDetailToFeatures`: project the finite
`{lat, lng}` flow points to `[lng, lat]` pairs; fewer than 2 valid
points drops the route. -/
def mapBusRouteToFeature (jstr : JsVal → String) (bus : JsVal) (route : JsVal)
    (index : ℕ) : Option RouteFeature :=
  match getField route "flowCoordinates" with
  | .arr points =>
    let coordinates := (points.filter (fun point =>
        isFiniteNumVal (getField point "lng") && isFiniteNumVal (getField point "lat"))).map
      (fun point => JsVal.arr [getField point "lng", getField point "lat"])
    if coordinates.length < 2 then none
    else
      let routeCode := nullishOr (getField route "code")
        (nullishOr (getField route "customerName")
          (nullishOr (getField bus "number")
            (.str ("Bus " ++ jstr (nullishOr (getField bus "id") (.str "-"))))))
      let routeId := jstr (nullishOr (getField bus "id") (.str "x")) ++ "-"
        ++ jstr (nullishOr (getField route "id") (.num (.fin ((index : ℚ) + 1)))) ++ "-"
        ++ jstr (nullishOr (getField route "directionTypeId") (.str "0"))
      let routeName := nullishOr (getField route "destination") routeCode
      some { geometry := .lineString (.arr coordinates),
             properties := .obj [("id", .str routeId), ("name", routeName),
               ("number", routeCode), ("busId", getField bus "id"),
               ("directionTypeId", getField route "directionTypeId")] }
  | _ => none

/-- `mapBusDetailToFeatures`. -/
def mapBusDetailToFeatures (jstr : JsVal → String) (bus : JsVal) : List RouteFeature :=
  match getField bus "routes" with
  | .arr routes =>
    (routes.enum.map (fun p => mapBusRouteToFeature jstr bus p.2 p.1)).reduceOption
  | _ => []

/-- `mapBusDetails`. -/
def mapBusDetails (jstr : JsVal → String) (bus : JsVal) (source : Source) :
    AynaBusDetails :=
  { id := match getField bus "id" with
      | .num n => n
      | _ => .fin (-1),
    number := match getField bus "number" with
      | .str s =>
        if 0 < s.trim.length then s
        else jstr (.num (match getField bus "id" with
          | .num n => n
          | _ => .fin (-1)))
      | _ => jstr (.num (match getField bus "id" with
          | .num n => n
          | _ => .fin (-1))),
    carrier := match getField bus "carrier" with
      | .str s => some s
      | _ => none,
    firstPoint := match getField bus "firstPoint" with
      | .str s => some s
      | _ => none,
    lastPoint := match getField bus "lastPoint" with
      | .str s => some s
      | _ => none,
    tariffStr := match getField bus "tariffStr" with
      | .str s => some s
      | _ => none,
    durationMinuts := match getField bus "durationMinuts" with
      | .num n => some n
      | _ => none,
    features := mapBusDetailToFeatures jstr bus,
    source := source }

/-- A per-id bus-details cache entry. -/
structure BusDetailsCacheEntry where
  data : AynaBusDetails
  expiresAt : ℚ

/-- The `busDetailsCache.get(busId)` freshness check: an entry is usable
iff `expiresAt > now`. -/
def lookupFreshDetails (cache : List (JsNum × BusDetailsCacheEntry)) (busId : JsNum)
    (now : ℚ) : Option AynaBusDetails :=
  match assocGet cache busId with
  | some cached => if now < cached.expiresAt then some cached.data else none
  | none => none

/-- The candidate-URL loop of `loadAynaBusDetails`; the third component
counts the `getBusById` network calls performed. -/
def detailsGo (net : Net) (jstr : JsVal → String) (snap : Except Unit JsVal)
    (busId : JsNum) (now : ℚ) (cache : List (JsNum × BusDetailsCacheEntry)) :
    List String → Except Unit (AynaBusDetails × List (JsNum × BusDetailsCacheEntry) × ℕ)
  | [] =>
    match loadBusByIdSnapshot jstr snap busId with
    | .error e => .error e
    | .ok fallbackBus =>
      let mapped := mapBusDetails jstr fallbackBus .snapshotFallback
      .ok (mapped, assocSet cache busId ⟨mapped, now + BUS_DETAILS_CACHE_TTL_MS⟩, 0)
  | baseUrl :: rest =>
    match getBusById net jstr (sanitizeBaseUrl baseUrl) busId with
    | .error _ =>
      match detailsGo net jstr snap busId now cache rest with
      | .error e => .error e
      | .ok (d, c, calls) => .ok (d, c, calls + 1)
    | .ok bus =>
      let mapped := mapBusDetails jstr bus .liveApi
      .ok (mapped, assocSet cache busId ⟨mapped, now + BUS_DETAILS_CACHE_TTL_MS⟩, 1)

/-- `loadAynaBusDetails` with injectable clock, explicit cache state and
a network-call counter. -/
def loadAynaBusDetails (net : Net) (jstr : JsVal → String) (snap : Except Unit JsVal)
    (busId : JsNum) (apiBaseUrl : Option String) (forceRefresh : Bool) (now : ℚ)
    (cache : List (JsNum × BusDetailsCacheEntry)) :
    Except Unit (AynaBusDetails × List (JsNum × BusDetailsCacheEntry) × ℕ) :=
  if forceRefresh = false then
    match lookupFreshDetails cache busId now with
    | some data => .ok (data, cache, 0)
    | none => detailsGo net jstr snap busId now cache (getApiBaseCandidates apiBaseUrl)
  else detailsGo net jstr snap busId now cache (getApiBaseCandidates apiBaseUrl)

/-- The id filter of `loadAynaRouteFeatures`: keep only finite numeric
ids. -/
def finiteIdOf (v : JsVal) : Option JsNum :=
  match v with
  | .num n => if n.isFinite then some n else none
  | _ => none

/-- `busList.map(bus => bus.id).filter(finite).slice(0, 250)`. -/
def selectRouteBusIds (busList : List JsVal) : List JsNum :=
  ((busList.map (fun bus => getField bus "id")).filterMap finiteIdOf).take 250

/-- The `index += batchSize` slicing loop of `getBusDetailsInBatches`
(defined for positive batch sizes, as called with 20). -/
def chunks {α : Type} (batchSize : ℕ) : List α → List (List α)
  | [] => []
  | x :: xs => ((x :: xs).take batchSize) :: chunks batchSize (xs.drop (batchSize - 1))
termination_by l => l.length
decreasing_by simp [List.length_drop]; omega

/-- `getBusDetailsInBatches`: per-batch settled results, flattened in
order. -/
def getBusDetailsInBatches (net : Net) (jstr : JsVal → String) (baseUrl : String)
    (busIds : List JsNum) (batchSize : ℕ) : List (Except Unit JsVal) :=
  ((chunks batchSize busIds).map (fun batch =>
    batch.map (getBusById net jstr baseUrl))).flatten

end Ayna

namespace Ayna

theorem busListGo_all_fail (net : Net) (jstr : JsVal → String) (snap : Except Unit JsVal)
    (now : ℚ) (cache : Option BusListCacheEntry) :
    ∀ cands : List String,
      (∀ base ∈ cands, net (sanitizeBaseUrl base ++ "/api/bus/getBusList") = .error ()) →
      busListGo net jstr snap now cache cands
        = (⟨loadBusListSnapshot jstr snap, .snapshotFallback⟩, cache) := by
  intro cands
  induction cands with
  | nil => intro _; rfl
  | cons b rest ih =>
    intro hall
    have hb := hall b (List.mem_cons_self b rest)
    simp only [busListGo, getBusList, hb]
    exact ih (fun x hx => hall x (List.mem_cons_of_mem b hx))

/-- C3: when the cache is stale/empty and every candidate base-URL
request fails, `loadAynaBusList` still resolves, tagged
`snapshot-fallback`; a missing snapshot file or a non-array snapshot
body degrade to an empty bus list. -/
theorem loadAynaBusList_fallback (net : Net) (jstr : JsVal → String)
    (snap : Except Unit JsVal) (apiBaseUrl : Option String) (now : ℚ)
    (cache : Option BusListCacheEntry)
    (hcache : ∀ entry, cache = some entry → entry.expiresAt ≤ now)
    (hnet : ∀ base ∈ getApiBaseCandidates apiBaseUrl,
      net (sanitizeBaseUrl base ++ "/api/bus/getBusList") = .error ()) :
    (loadAynaBusList net jstr snap apiBaseUrl now cache).1.source = .snapshotFallback
    ∧ (loadAynaBusList net jstr snap apiBaseUrl now cache).1.buses
        = loadBusListSnapshot jstr snap
    ∧ (snap = .error () → (loadAynaBusList net jstr snap apiBaseUrl now cache).1.buses = [])
    ∧ (∀ v, snap = .ok v → isArr v = false →
        (loadAynaBusList net jstr snap apiBaseUrl now cache).1.buses = []) := by
  have hgo := busListGo_all_fail net jstr snap now cache (getApiBaseCandidates apiBaseUrl) hnet
  have hmain : loadAynaBusList net jstr snap apiBaseUrl now cache
      = (⟨loadBusListSnapshot jstr snap, .snapshotFallback⟩, cache) := by
    unfold loadAynaBusList
    cases hc : cache with
    | none =>
      rw [hc] at hgo
      dsimp only
      exact hgo
    | some entry =>
      have hle := hcache entry hc
      rw [hc] at hgo
      dsimp only
      rw [if_neg (not_lt.mpr hle)]
      exact hgo
  refine ⟨by rw [hmain], by rw [hmain], ?_, ?_⟩
  · intro hsnap
    rw [hmain]
    show loadBusListSnapshot jstr snap = []
    rw [hsnap]
    rfl
  · intro v hsnap hval
    rw [hmain]
    show loadBusListSnapshot jstr snap = []
    rw [hsnap]
    cases v with
    | arr items => simp [isArr] at hval
    | num n => rfl
    | str s => rfl
    | bool b => rfl
    | null => rfl
    | undefined => rfl
    | date t => rfl
    | obj props => rfl

/-- Witness for `loadAynaBusList_fallback` at a concrete environment. -/
theorem loadAynaBusList_fallback_witness :
    (loadAynaBusList (fun _ => .error ()) jstr0 (.error ()) none 0 none).1.source
      = .snapshotFallback
    ∧ (loadAynaBusList (fun _ => .error ()) jstr0 (.error ()) none 0 none).1.buses = [] := by
  have h := loadAynaBusList_fallback (fun _ => .error ()) jstr0 (.error ()) none 0 none
    (fun entry he => Option.noConfusion he) (fun base hb => rfl)
  exact ⟨h.1, h.2.2.1 rfl⟩

/-- C4: with the first candidate live-successful, a first call at `t0`
on an empty cache performs exactly 1 network call and caches the result
until `t0 + 90s`; a second call before that expiry performs 0 network
calls and returns the cached details; a third call at or after expiry
performs 1 network call again and re-stamps the entry; and a cache entry
is usable iff its `expiresAt` exceeds the current time. -/
theorem loadAynaBusDetails_ttl (net : Net) (jstr : JsVal → String)
    (snap : Except Unit JsVal) (busId : JsNum) (apiBaseUrl : Option String)
    (payload : JsVal) (c0 : String) (rest : List String) (t0 t1 t2 : ℚ)
    (hcands : getApiBaseCandidates apiBaseUrl = c0 :: rest)
    (hnet : getBusById net jstr (sanitizeBaseUrl c0) busId = .ok payload)
    (ht1 : t1 < t0 + BUS_DETAILS_CACHE_TTL_MS)
    (ht2 : t0 + BUS_DETAILS_CACHE_TTL_MS ≤ t2) :
    loadAynaBusDetails net jstr snap busId apiBaseUrl false t0 []
      = .ok (mapBusDetails jstr payload .liveApi,
          [(busId, ⟨mapBusDetails jstr payload .liveApi, t0 + BUS_DETAILS_CACHE_TTL_MS⟩)], 1)
    ∧ loadAynaBusDetails net jstr snap busId apiBaseUrl false t1
        [(busId, ⟨mapBusDetails jstr payload .liveApi, t0 + BUS_DETAILS_CACHE_TTL_MS⟩)]
      = .ok (mapBusDetails jstr payload .liveApi,
          [(busId, ⟨mapBusDetails jstr payload .liveApi, t0 + BUS_DETAILS_CACHE_TTL_MS⟩)], 0)
    ∧ loadAynaBusDetails net jstr snap busId apiBaseUrl false t2
        [(busId, ⟨mapBusDetails jstr payload .liveApi, t0 + BUS_DETAILS_CACHE_TTL_MS⟩)]
      = .ok (mapBusDetails jstr payload .liveApi,
          [(busId, ⟨mapBusDetails jstr payload .liveApi, t2 + BUS_DETAILS_CACHE_TTL_MS⟩)], 1)
    ∧ (∀ (cache : List (JsNum × BusDetailsCacheEntry)) (now : ℚ) (e : BusDetailsCacheEntry),
        assocGet cache busId = some e →
        (lookupFreshDetails cache busId now = some e.data ↔ now < e.expiresAt)) := by
  refine ⟨?_, ?_, ?_, ?_⟩
  · simp [loadAynaBusDetails, lookupFreshDetails, assocGet, hcands, detailsGo, hnet, assocSet]
  · simp [loadAynaBusDetails, lookupFreshDetails, assocGet, ht1]
  · have hmiss : ¬(t2 < t0 + BUS_DETAILS_CACHE_TTL_MS) := not_lt.mpr ht2
    simp [loadAynaBusDetails, lookupFreshDetails, assocGet, hmiss, hcands, detailsGo, hnet,
      assocSet]
  · intro cache now e he
    simp only [lookupFreshDetails, he]
    constructor
    · intro h
      by_cases hlt : now < e.expiresAt
      · exact hlt
      · rw [if_neg hlt] at h
        exact Option.noConfusion h
    · intro hlt
      rw [if_pos hlt]

/-- Witness for `loadAynaBusDetails_ttl`: the second (cached) call. -/
theorem loadAynaBusDetails_ttl_witness :
    loadAynaBusDetails (fun _ => .ok (.obj [])) jstr0 (.error ()) (.fin 7) none
        false 1 [(.fin 7, ⟨mapBusDetails jstr0 (.obj []) .liveApi,
          0 + BUS_DETAILS_CACHE_TTL_MS⟩)]
      = .ok (mapBusDetails jstr0 (.obj []) .liveApi,
          [(.fin 7, ⟨mapBusDetails jstr0 (.obj []) .liveApi, 0 + BUS_DETAILS_CACHE_TTL_MS⟩)],
          0) :=
  (loadAynaBusDetails_ttl (fun _ => .ok (.obj [])) jstr0 (.error ()) (.fin 7) none
    (.obj []) "/ayna-api" [DEFAULT_AYNA_API_BASE] 0 1 90001
    rfl rfl
    (by norm_num [BUS_DETAILS_CACHE_TTL_MS])
    (by norm_num [BUS_DETAILS_CACHE_TTL_MS])).2.1

end Ayna

namespace Ayna

/-- The stub `loadAynaBusDetails` falls back to when the bundled
snapshot carries a different bus id: `{id: busId, number: String(busId)}`
mapped to details with no route features. -/
def stubDetails (jstr : JsVal → String) (busId : JsNum) : AynaBusDetails :=
  ⟨busId, jstr (.num busId), none, none, none, none, none, [], .snapshotFallback⟩

theorem mapBusDetails_stub (jstr : JsVal → String) (busId : JsNum) :
    mapBusDetails jstr (.obj [("id", .num busId), ("number", .str (jstr (.num busId))),
      ("routes", .arr [])]) .snapshotFallback = stubDetails jstr busId := by
  simp [mapBusDetails, stubDetails, getField, assocGet, mapBusDetailToFeatures,
    List.reduceOption]

theorem detailsGo_all_fail (net : Net) (jstr : JsVal → String) (snap : Except Unit JsVal)
    (busId : JsNum) (now : ℚ) (cache : List (JsNum × BusDetailsCacheEntry)) :
    ∀ cands : List String,
      (∀ base ∈ cands, getBusById net jstr (sanitizeBaseUrl base) busId = .error ()) →
      detailsGo net jstr snap busId now cache cands
        = match detailsGo net jstr snap busId now cache [] with
          | .error e => .error e
          | .ok (d, c, calls) => .ok (d, c, calls + cands.length) := by
  intro cands
  induction cands with
  | nil =>
    intro _
    cases h : detailsGo net jstr snap busId now cache [] with
    | error e => simp
    | ok t =>
      obtain ⟨d, c, calls⟩ := t
      simp
  | cons b rest ih =>
    intro hall
    have hb := hall b (List.mem_cons_self b rest)
    rw [show detailsGo net jstr snap busId now cache (b :: rest)
        = match getBusById net jstr (sanitizeBaseUrl b) busId with
          | .error _ =>
            match detailsGo net jstr snap busId now cache rest with
            | .error e => .error e
            | .ok (d, c, calls) => .ok (d, c, calls + 1)
          | .ok bus =>
            .ok (mapBusDetails jstr bus .liveApi,
              assocSet cache busId
                ⟨mapBusDetails jstr bus .liveApi, now + BUS_DETAILS_CACHE_TTL_MS⟩, 1)
      from rfl]
    rw [hb, ih (fun x hx => hall x (List.mem_cons_of_mem b hx))]
    cases h : detailsGo net jstr snap busId now cache [] with
    | error e => simp
    | ok t =>
      obtain ⟨d, c, calls⟩ := t
      simp [Nat.add_assoc]

/-- C10: when every live candidate fails and the snapshot detail file
carries a different id, `loadAynaBusDetails` resolves with the
`{id: busId, number: String(busId)}` stub (no route features), tagged
`snapshot-fallback`, writes that stub into the per-id cache, and the
snapshot's actual data is never returned. -/
theorem loadAynaBusDetails_snapshot_stub (net : Net) (jstr : JsVal → String)
    (snapPayload : JsVal) (busId : JsNum) (apiBaseUrl : Option String) (now : ℚ)
    (cache : List (JsNum × BusDetailsCacheEntry)) (n0 : JsNum)
    (hnet : ∀ base ∈ getApiBaseCandidates apiBaseUrl,
      getBusById net jstr (sanitizeBaseUrl base) busId = .error ())
    (hfresh : lookupFreshDetails cache busId now = none)
    (hid : getField snapPayload "id" = .num n0)
    (hne : jsNumStrictEq n0 busId = false) :
    loadAynaBusDetails net jstr (.ok snapPayload) busId apiBaseUrl false now cache
      = .ok (stubDetails jstr busId,
          assocSet cache busId ⟨stubDetails jstr busId, now + BUS_DETAILS_CACHE_TTL_MS⟩,
          (getApiBaseCandidates apiBaseUrl).length) := by
  have hbase : detailsGo net jstr (.ok snapPayload) busId now cache []
      = .ok (stubDetails jstr busId,
          assocSet cache busId ⟨stubDetails jstr busId, now + BUS_DETAILS_CACHE_TTL_MS⟩,
          0) := by
    simp only [detailsGo, loadBusByIdSnapshot, hid, hne, Bool.false_eq_true, if_false,
      mapBusDetails_stub]
  have hgo := detailsGo_all_fail net jstr (.ok snapPayload) busId now cache
    (getApiBaseCandidates apiBaseUrl) hnet
  rw [hbase] at hgo
  simp only [Nat.zero_add] at hgo
  simp only [loadAynaBusDetails, hfresh]
  simpa using hgo

/-- Witness for `loadAynaBusDetails_snapshot_stub` at a concrete
environment (snapshot holds bus 999, request is for bus 7). -/
theorem loadAynaBusDetails_snapshot_stub_witness :
    loadAynaBusDetails (fun _ => .error ()) jstr0 (.ok (.obj [("id", .num (.fin 999))]))
        (.fin 7) none false 0 []
      = .ok (stubDetails jstr0 (.fin 7),
          assocSet [] (.fin 7) ⟨stubDetails jstr0 (.fin 7), 0 + BUS_DETAILS_CACHE_TTL_MS⟩,
          (getApiBaseCandidates none).length) :=
  loadAynaBusDetails_snapshot_stub (fun _ => .error ()) jstr0 (.obj [("id", .num (.fin 999))])
    (.fin 7) none 0 [] (.fin 999)
    (fun base hb => rfl) rfl rfl (by decide)

theorem chunks_length_le {α : Type} (bs : ℕ) (hbs : 1 ≤ bs) :
    ∀ (n : ℕ) (l : List α), l.length ≤ bs * n → (chunks bs l).length ≤ n := by
  intro n
  induction n with
  | zero =>
    intro l hl
    have hnil : l = [] := List.eq_nil_of_length_eq_zero (by omega)
    subst hnil
    simp [chunks]
  | succ m ih =>
    intro l hl
    cases l with
    | nil => simp [chunks]
    | cons x xs =>
      rw [chunks]
      simp only [List.length_cons]
      have h1 : (xs.drop (bs - 1)).length ≤ bs * m := by
        rw [List.length_drop]
        rw [Nat.mul_succ] at hl
        simp only [List.length_cons] at hl
        omega
      have := ih (xs.drop (bs - 1)) h1
      omega

theorem chunks_batch_le {α : Type} (bs : ℕ) :
    ∀ (l : List α), ∀ b ∈ chunks bs l, b.length ≤ bs
  | [] => by
    intro b hb
    rw [chunks] at hb
    exact absurd hb (List.not_mem_nil b)
  | x :: xs => by
    intro b hb
    rw [chunks] at hb
    rcases List.mem_cons.mp hb with h | h
    · subst h
      exact List.length_take_le bs (x :: xs)
    · exact chunks_batch_le bs (xs.drop (bs - 1)) b h
termination_by l => l.length
decreasing_by simp [List.length_drop]; omega

theorem chunks_flatten {α : Type} (bs : ℕ) (hbs : 1 ≤ bs) :
    ∀ l : List α, (chunks bs l).flatten = l
  | [] => by simp [chunks]
  | x :: xs => by
    rw [chunks, List.flatten_cons, chunks_flatten bs hbs (xs.drop (bs - 1))]
    obtain ⟨m, rfl⟩ : ∃ m, bs = m + 1 := ⟨bs - 1, by omega⟩
    rw [List.take_succ_cons]
    simp [List.take_append_drop]
termination_by l => l.length
decreasing_by simp [List.length_drop]; omega

/-- C9: the live route-features path selects at most the first 250
finite-numeric bus ids (later ids are ignored), and splits them into at
most `ceil(250/20) = 13` sequential batches of at most 20 requests each,
which together cover exactly the selected ids. -/
theorem routeBatches_spec (busList : List JsVal) :
    (selectRouteBusIds busList).length ≤ 250
    ∧ (chunks 20 (selectRouteBusIds busList)).length ≤ 13
    ∧ (∀ batch ∈ chunks 20 (selectRouteBusIds busList), batch.length ≤ 20)
    ∧ (chunks 20 (selectRouteBusIds busList)).flatten = selectRouteBusIds busList
    ∧ (∀ extra : List JsVal,
        250 ≤ ((busList.map (fun bus => getField bus "id")).filterMap finiteIdOf).length →
        selectRouteBusIds (busList ++ extra) = selectRouteBusIds busList) := by
  have hlen : (selectRouteBusIds busList).length ≤ 250 := by
    simp only [selectRouteBusIds, List.length_take]
    omega
  refine ⟨hlen, ?_, ?_, ?_, ?_⟩
  · exact chunks_length_le 20 (by omega) 13 _ (by omega)
  · exact chunks_batch_le 20 _
  · exact chunks_flatten 20 (by omega) _
  · intro extra hx
    unfold selectRouteBusIds
    rw [List.map_append, List.filterMap_append, List.take_append_eq_append_take]
    have h0 : 250 - ((busList.map (fun bus => getField bus "id")).filterMap finiteIdOf).length
        = 0 := by omega
    rw [h0]
    simp

/-- Witness for `routeBatches_spec`: 250 ids present, an extra trailing
element is ignored. -/
theorem routeBatches_spec_witness :
    selectRouteBusIds (List.replicate 250 (.obj [("id", .num (.fin 1))]) ++ [.obj []])
      = selectRouteBusIds (List.replicate 250 (.obj [("id", .num (.fin 1))])) :=
  (routeBatches_spec (List.replicate 250 (.obj [("id", .num (.fin 1))]))).2.2.2.2 [.obj []]
    (by
      simp only [List.map_replicate]
      rw [List.filterMap_replicate_of_some
        (show finiteIdOf (getField (JsVal.obj [("id", JsVal.num (JsNum.fin 1))]) "id")
          = some (JsNum.fin 1) from rfl)]
      rw [List.length_replicate])

end Ayna
